import Mathlib

/-!
Verification of the mail-delivery worker (package `mailer`) and the
HTTP event-notification sender (package `webhook`).

The mailer is modelled as a deterministic state-transition system.  An
`Env` scripts the external world for one execution: when the caller's
cancellation signal is observed (as a threshold on the number of
select-checks performed) and the outcome of each dial attempt (indexed
by a global attempt counter).  Each pending mail is an `MMail` scripting
the outcome of its `Generate` call and of its (single) `Send` attempt.
Every observable action of the worker — a send attempt, an outcome
callback (`Success`, `Backoff`, `Error`), a `Reset` or `Close` on a
connection — is recorded as an `Event` in the order it happens, and the
runtime panics the Go code can hit (method call on a nil interface,
index out of range) are recorded as flags on the state.
-/

namespace Mailer

/-- Error values that flow into the `Backoff`/`Error` callbacks.  Each
constructor carries enough identity to distinguish distinct errors:
`gen eid` is a `Generate` failure, `proto code` a `*textproto.Error`
with that SMTP code, `conn eid` a non-protocol (connection-level) send
failure, `dial n` the failure of the `n`-th dial attempt,
`maxAttempts e` the `ErrMaxConnectAttempts` wrapping the last
underlying dial error, and `dcap eid` a `GetDialer` failure. -/
inductive Err : Type where
  | gen (eid : Nat)
  | proto (code : Nat)
  | conn (eid : Nat)
  | dial (n : Nat)
  | maxAttempts (e : Err)
  | dcap (eid : Nat)
deriving DecidableEq, Repr

/-- Observable events, in order of occurrence.  `sent c id` records the
call `gomail.Send(sender, message)` for the mail with identity `id` on
the connection with identity `c`; `success`, `backoff` and `error` are
the three outcome callbacks of the `Mail` interface; `reset c` and
`close c` are `Reset`/`Close` on connection `c`; `tick` is one firing of
the pacing timer in `sendDelayedMail`. -/
inductive Event : Type where
  | sent (c : Nat) (id : Nat)
  | success (id : Nat)
  | backoff (id : Nat) (e : Err)
  | error (id : Nat) (e : Err)
  | reset (c : Nat)
  | close (c : Nat)
  | tick
deriving DecidableEq, Repr

/-- Outcome scripted for a mail's `Generate` call. -/
inductive GenRes : Type where
  | ok
  | fail (eid : Nat)
deriving DecidableEq, Repr

/-- Outcome scripted for a mail's single `gomail.Send` attempt:
success, a `*textproto.Error` with the given code, or a non-protocol
(connection-level) error with identity `eid`. -/
inductive SendRes : Type where
  | ok
  | proto (code : Nat)
  | connE (eid : Nat)
deriving DecidableEq, Repr

/-- One mail of a batch: its identity (the `Mail` object the callbacks
are invoked on), the scripted results of `Generate`, `Send` and
`GetDialer` (`dialerErr = some eid` means `GetDialer` fails). -/
structure MMail : Type where
  id : Nat
  gen : GenRes
  send : SendRes
  dialerErr : Option Nat := none
deriving DecidableEq, Repr

/-- The scripted external world of one execution.  `cancelAt = some k`
means the context is observed as cancelled from the `k`-th
select-check onward (cancellation in Go is monotone); `none` means the
context is never cancelled.  `dialOk n` is the outcome of the `n`-th
call to `dialer.Dial()` (counted globally across the execution). -/
structure Env : Type where
  cancelAt : Option Nat
  dialOk : Nat → Bool

/-- Whether the context is observed as cancelled at the select-check
with index `checks`. -/
def cancelled (env : Env) (checks : Nat) : Bool :=
  match env.cancelAt with
  | none => false
  | some k => decide (k ≤ checks)

/-- The evolving execution state: number of select-checks performed,
number of dial attempts made, the next fresh connection identity, the
event trace so far, and two panic flags — `panicked` for a method call
on a nil interface value (Go: nil pointer dereference), `oob` for an
out-of-range slice index. -/
structure St : Type where
  checks : Nat := 0
  dials : Nat := 0
  nextConn : Nat := 0
  events : List Event := []
  panicked : Bool := false
  oob : Bool := false
deriving DecidableEq, Repr

/-- Append one event to the trace. -/
def emit (s : St) (e : Event) : St :=
  { s with events := s.events ++ [e] }

/-- `errorMail` (mailer.go): invoke `Error(err)` on every mail of the
slice, in order. -/
def errorMail (e : Err) (ms : List MMail) (s : St) : St :=
  ms.foldl (fun s m => emit s (.error m.id e)) s

/-- `MaxReconnectAttempts` (mailer.go): the dial-attempt ceiling. -/
def MaxReconnectAttempts : Nat := 10

/-- Result of `dialHost`: `cancelled` models the `(nil, nil)` return on
an observed cancellation, `ok c` a successfully dialed connection with
identity `c`, `failed e` the `(nil, ErrMaxConnectAttempts)` return. -/
inductive DialResult : Type where
  | cancelled
  | ok (c : Nat)
  | failed (e : Err)
deriving DecidableEq, Repr

/-- The loop body of `dialHost`.  `fuel` is `MaxReconnectAttempts - 1 -
sendAttempt`: the Go loop increments `sendAttempt` after each failed
dial and gives up when it reaches `MaxReconnectAttempts`, so with
`fuel = 0` the current failed attempt is the last one and its error is
wrapped in `ErrMaxConnectAttempts`.  Before every attempt the context
is checked; if cancelled the function returns `(nil, nil)`. -/
def dialHostLoop (env : Env) (fuel : Nat) (s : St) : DialResult × St :=
  if cancelled env s.checks then
    (.cancelled, { s with checks := s.checks + 1 })
  else
    let s1 : St := { s with checks := s.checks + 1, dials := s.dials + 1 }
    if env.dialOk s.dials then
      (.ok s1.nextConn, { s1 with nextConn := s1.nextConn + 1 })
    else
      match fuel with
      | 0 => (.failed (.maxAttempts (.dial s.dials)), s1)
      | f + 1 => dialHostLoop env f s1

/-- `dialHost` (mailer.go): retry dialing up to `MaxReconnectAttempts`
times, checking the cancellation signal before each attempt. -/
def dialHost (env : Env) (s : St) : DialResult × St :=
  dialHostLoop env (MaxReconnectAttempts - 1) s

/-- The deferred `sender.Close()` at the exit of `sendMail`'s loop:
`conn = some c` closes connection `c`; `conn = none` is a `Close` call
on a nil `Sender` interface value, which panics. -/
def closeConn (conn : Option Nat) (s : St) : St :=
  match conn with
  | some c => emit s (.close c)
  | none => { s with panicked := true }

/-- The per-message loop of `sendMail` (mailer.go).  `conn` is the
current value of the `sender` variable (`none` when it holds nil, which
happens after `dialHost` returned `(nil, nil)`).  Each iteration checks
the context, generates the message, sends it, and classifies a send
failure: 4xx protocol code → `Backoff` + `Reset`; 5xx or any other
protocol code → `Error` + `Reset`; non-protocol error → reconnect, on
success `Backoff(origErr)` and continue with the new connection, on
failure `Error` every remaining mail and break.  On leaving the loop
the deferred `sender.Close()` runs on the current `sender` value. -/
def sendLoop (env : Env) : List MMail → Option Nat → St → St
  | [], conn, s => closeConn conn s
  | m :: rest, conn, s =>
    if cancelled env s.checks then
      closeConn conn { s with checks := s.checks + 1 }
    else
      let s0 : St := { s with checks := s.checks + 1 }
      match m.gen with
      | .fail eid => sendLoop env rest conn (emit s0 (.error m.id (.gen eid)))
      | .ok =>
        match conn with
        | none => { s0 with panicked := true }
        | some c =>
          let s1 := emit s0 (.sent c m.id)
          match m.send with
          | .ok => sendLoop env rest (some c) (emit s1 (.success m.id))
          | .proto code =>
            if 400 ≤ code ∧ code ≤ 499 then
              sendLoop env rest (some c)
                (emit (emit s1 (.backoff m.id (.proto code))) (.reset c))
            else if 500 ≤ code ∧ code ≤ 599 then
              sendLoop env rest (some c)
                (emit (emit s1 (.error m.id (.proto code))) (.reset c))
            else
              sendLoop env rest (some c)
                (emit (emit s1 (.error m.id (.proto code))) (.reset c))
          | .connE eid =>
            match dialHost env s1 with
            | (.failed e, s2) => closeConn none (errorMail e (m :: rest) s2)
            | (.cancelled, s2) =>
              sendLoop env rest none (emit s2 (.backoff m.id (.conn eid)))
            | (.ok c2, s2) =>
              sendLoop env rest (some c2) (emit s2 (.backoff m.id (.conn eid)))

/-- `sendMail` (mailer.go): acquire a connection via `dialHost`; on a
dial error, `Error` out every mail and return; otherwise run the
per-message loop.  When `dialHost` observed a cancellation it returns
`(nil, nil)`, the error check passes, and the loop runs with a nil
`sender`. -/
def sendMail (env : Env) (ms : List MMail) (s : St) : St :=
  match dialHost env s with
  | (.failed e, s1) => errorMail e ms s1
  | (.cancelled, s1) => sendLoop env ms none s1
  | (.ok c, s1) => sendLoop env ms (some c) s1

/-- `sendDelayedMail` (mailer.go): one select per mail, choosing the
cancellation signal (return) or the next timer tick; on a tick, deliver
that single mail through a fresh `sendMail` invocation. -/
def sendDelayedMail (env : Env) : List MMail → St → St
  | [], s => s
  | m :: rest, s =>
    if cancelled env s.checks then
      { s with checks := s.checks + 1 }
    else
      sendDelayedMail env rest
        (sendMail env [m] (emit { s with checks := s.checks + 1 } .tick))

/-- A batch: its pacing delay (seconds, an int64 in the source) and its
ordered mails. -/
structure MailBundle : Type where
  delay : Int
  mails : List MMail
deriving DecidableEq, Repr

/-- The body of the goroutine `Start` (mailer.go) launches per bundle:
it reads `ms[0].GetDialer()` unconditionally — on an empty bundle this
slice index is out of range (`oob`).  On a `GetDialer` error every mail
is errored out; otherwise the plain loop runs when `Delay ≤ 0` and the
paced loop when `Delay > 0`. -/
def processBundle (env : Env) (mb : MailBundle) (s : St) : St :=
  match mb.mails with
  | [] => { s with oob := true }
  | m0 :: _ =>
    match m0.dialerErr with
    | some eid => errorMail (.dcap eid) mb.mails s
    | none =>
      if mb.delay ≤ 0 then sendMail env mb.mails s
      else sendDelayedMail env mb.mails s

/-- Whether an event is a send attempt. -/
def Event.isSent : Event → Bool
  | .sent _ _ => true
  | _ => false

/-- Whether an event is one of the three outcome callbacks. -/
def Event.isOutcome : Event → Bool
  | .success _ => true
  | .backoff _ _ => true
  | .error _ _ => true
  | _ => false

/-- The events a mail contributes in a run without connection-level
failures: the send attempt followed by its classified outcome (and the
reset on a protocol failure). -/
def stepEvents (c : Nat) (m : MMail) : List Event :=
  match m.send with
  | .ok => [.sent c m.id, .success m.id]
  | .proto code =>
    if 400 ≤ code ∧ code ≤ 499 then
      [.sent c m.id, .backoff m.id (.proto code), .reset c]
    else
      [.sent c m.id, .error m.id (.proto code), .reset c]
  | .connE _ => []

/-- The full event suffix of a run of `sendLoop` on connection `c` in
which every mail generates successfully and none hits a
connection-level failure, ending with the deferred close of `c`. -/
def tameEvents (c : Nat) : List MMail → List Event
  | [] => [.close c]
  | m :: rest => stepEvents c m ++ tameEvents c rest

/-- The event suffix of a paced run in which every dial succeeds and
every send succeeds: per mail one timer tick, one send on a fresh
connection, one success, one close of that connection. -/
def delayedEvents (c0 : Nat) : List MMail → List Event
  | [] => []
  | m :: rest =>
    [.tick, .sent c0 m.id, .success m.id, .close c0] ++ delayedEvents (c0 + 1) rest

end Mailer

/-!
The `webhook` package.  Bytes are modelled as `Nat` values below 256;
Go strings passed to `[]byte(...)` are byte lists.  The hash pipeline —
HMAC-SHA-256 followed by `hex.EncodeToString` — is implemented in full.

The source of `Send` contains a type error: it calls
`sign(secret, data)` with `data` of type `interface{}` where `sign`
requires the `[]byte` of the serialized JSON body, so the package does
not compile.  `Send` below models the only well-typed reading — the one
the package's own `sign` signature, the spec and the claim describe —
in which the signature is computed over `jsonData`, the serialized
JSON body.
-/

namespace Webhook

/-- One 32-bit right-rotation (`bits.RotateLeft32` analogue used by the
SHA-256 compression function). -/
def rotr32 (x n : Nat) : Nat :=
  ((x >>> n) ||| (x <<< (32 - n))) % 4294967296

/-- The SHA-256 round constants. -/
def K : List Nat :=
  [1116352408, 1899447441, 3049323471, 3921009573, 961987163,
   1508970993, 2453635748, 2870763221, 3624381080, 310598401,
   607225278, 1426881987, 1925078388, 2162078206, 2614888103,
   3248222580, 3835390401, 4022224774, 264347078, 604807628,
   770255983, 1249150122, 1555081692, 1996064986, 2554220882,
   2821834349, 2952996808, 3210313671, 3336571891, 3584528711,
   113926993, 338241895, 666307205, 773529912, 1294757372,
   1396182291, 1695183700, 1986661051, 2177026350, 2456956037,
   2730485921, 2820302411, 3259730800, 3345764771, 3516065817,
   3600352804, 4094571909, 275423344, 430227734, 506948616,
   659060556, 883997877, 958139571, 1322822218, 1537002063,
   1747873779, 1955562222, 2024104815, 2227730452, 2361852424,
   2428436474, 2756734187, 3204031479, 3329325298]

/-- The SHA-256 initial hash value. -/
def H0 : List Nat :=
  [1779033703, 3144134277, 1013904242, 2773480762,
   1359893119, 2600822924, 528734635, 1541459225]

/-- Group a byte list into big-endian 32-bit words. -/
def wordsOfBytes : List Nat → List Nat
  | b0 :: b1 :: b2 :: b3 :: rest =>
    (((b0 * 256 + b1) * 256 + b2) * 256 + b3) :: wordsOfBytes rest
  | _ => []

/-- The small sigma-0 function of the message schedule. -/
def ssig0 (x : Nat) : Nat := rotr32 x 7 ^^^ rotr32 x 18 ^^^ (x >>> 3)

/-- The small sigma-1 function of the message schedule. -/
def ssig1 (x : Nat) : Nat := rotr32 x 17 ^^^ rotr32 x 19 ^^^ (x >>> 10)

/-- Extend the 16 block words by `n` further schedule words. -/
def extendLoop : Nat → List Nat → List Nat
  | 0, acc => acc
  | n + 1, acc =>
    let i := acc.length
    let w := (acc.getD (i - 16) 0 + ssig0 (acc.getD (i - 15) 0)
              + acc.getD (i - 7) 0 + ssig1 (acc.getD (i - 2) 0)) % 4294967296
    extendLoop n (acc ++ [w])

/-- One SHA-256 compression round on the eight working variables. -/
def round1 : List Nat → Nat → Nat → List Nat
  | [a, b, c, d, e, f, g, h], k, w =>
    let bs1 := rotr32 e 6 ^^^ rotr32 e 11 ^^^ rotr32 e 25
    let ch := g ^^^ (e &&& (f ^^^ g))
    let t1 := (h + bs1 + ch + k + w) % 4294967296
    let bs0 := rotr32 a 2 ^^^ rotr32 a 13 ^^^ rotr32 a 22
    let mj := (b &&& c) ^^^ (a &&& (b ^^^ c))
    let t2 := (bs0 + mj) % 4294967296
    [(t1 + t2) % 4294967296, a, b, c, (d + t1) % 4294967296, e, f, g]
  | st, _, _ => st

/-- Process one 64-byte block: build the 64-word schedule, run the 64
rounds, and add the result into the running hash. -/
def processBlock (hs : List Nat) (block : List Nat) : List Nat :=
  let ws := extendLoop 48 (wordsOfBytes block)
  let fin := (ws.zip K).foldl (fun st wk => round1 st wk.2 wk.1) hs
  (hs.zip fin).map fun p => (p.1 + p.2) % 4294967296

/-- Split a byte list into 64-byte chunks; the fuel is an upper bound
on the number of chunks, so the list's length always suffices. -/
def chunksGo : Nat → List Nat → List (List Nat)
  | 0, _ => []
  | _, [] => []
  | n + 1, bs => bs.take 64 :: chunksGo n (bs.drop 64)

/-- Split a byte list into 64-byte chunks. -/
def chunks (bs : List Nat) : List (List Nat) :=
  chunksGo bs.length bs

/-- Big-endian encoding of `v` on `n` bytes. -/
def toBytesBE : Nat → Nat → List Nat
  | 0, _ => []
  | n + 1, v => toBytesBE n (v / 256) ++ [v % 256]

/-- SHA-256 padding: a `0x80` byte, zeros to 56 mod 64, then the bit
length on eight big-endian bytes. -/
def pad (msg : List Nat) : List Nat :=
  msg ++ [128] ++ List.replicate ((119 - msg.length % 64) % 64) 0
      ++ toBytesBE 8 (8 * msg.length)

/-- SHA-256 of a byte list. -/
def sha256 (msg : List Nat) : List Nat :=
  ((chunks (pad msg)).foldl processBlock H0).foldl
    (fun acc h => acc ++ toBytesBE 4 h) []

/-- HMAC-SHA-256 (`crypto/hmac` with `sha256.New`): keys longer than
the 64-byte block are hashed first, the key is zero-padded to the block
size, and the message is hashed under the inner pad then under the
outer pad. -/
def hmacSha256 (key msg : List Nat) : List Nat :=
  let k0 := if 64 < key.length then sha256 key else key
  let k1 := k0 ++ List.replicate (64 - k0.length) 0
  sha256 ((k1.map fun b => b ^^^ 92) ++ sha256 ((k1.map fun b => b ^^^ 54) ++ msg))

/-- One lower-case hexadecimal digit. -/
def hexDigit (n : Nat) : Char :=
  if n < 10 then Char.ofNat (48 + n) else Char.ofNat (87 + n)

/-- `hex.EncodeToString`: two lower-case hex digits per byte. -/
def hexEncode (bs : List Nat) : String :=
  String.mk (bs.foldr (fun b acc => hexDigit (b / 16) :: hexDigit (b % 16) :: acc) [])

/-- `sign` (webhook.go): the hex encoding of the HMAC-SHA-256 of the
data under the secret.  The error return of the source is always nil —
`hash.Hash.Write` never returns an error — so it is not modelled. -/
def sign (secret data : List Nat) : String :=
  hexEncode (hmacSha256 secret data)

/-- The scripted HTTP world of one `Send` call: the result of
`json.Marshal(data)` (`none` = serialization error), whether
`http.NewRequest` succeeds (its error is silently dropped by the
source; on failure `req` is nil and the following `req.Header.Set`
panics), and the result of `client.Do` (`none` = transport error,
`some code` = a response with that status code). -/
structure HttpEnv : Type where
  marshal : Option (List Nat)
  newRequestOk : Bool
  resp : Option Nat
deriving DecidableEq, Repr

/-- `MinHttpStatusErrorCode` (webhook.go). -/
def MinHttpStatusErrorCode : Nat := 400

/-- `SignatureHeader` (webhook.go). -/
def SignatureHeader : String := "X-Gophish-Signature"

/-- Observable outcome of one `Send` call. -/
inductive SendOutcome : Type where
  | errMarshal
  | errTransport
  | errStatus (code : Nat)
  | ok
  | panicked
deriving DecidableEq, Repr

/-- The POST request handed to the HTTP client: its body and the two
headers `Send` sets on it. -/
structure PostedRequest : Type where
  body : List Nat
  signatureHeaderValue : String
  contentType : String
deriving DecidableEq, Repr

/-- `Send` (webhook.go), under the well-typed reading of the ill-typed
`sign(secret, data)` call (see the namespace comment): marshal the
payload, build the POST request carrying the hex HMAC-SHA-256 signature
of the serialized body in `SignatureHeader` and a JSON content type,
perform it, and report an error for a marshal failure, a transport
failure, or a response status at or above `MinHttpStatusErrorCode`. -/
def Send (env : HttpEnv) (secret : List Nat) : SendOutcome × Option PostedRequest :=
  match env.marshal with
  | none => (.errMarshal, none)
  | some jsonData =>
    if env.newRequestOk = false then (.panicked, none)
    else
      let req : PostedRequest :=
        { body := jsonData,
          signatureHeaderValue := sign secret jsonData,
          contentType := "application/json" }
      match env.resp with
      | none => (.errTransport, some req)
      | some code =>
        if MinHttpStatusErrorCode ≤ code then (.errStatus code, some req)
        else (.ok, some req)

/-- Whether an outcome is an error return of `Send`. -/
def SendOutcome.isError : SendOutcome → Bool
  | .errMarshal => true
  | .errTransport => true
  | .errStatus _ => true
  | _ => false

end Webhook

namespace Mailer

/-- Cancellation, once observed, stays observed at later checks. -/
lemma cancelled_mono {env : Env} {a b : Nat} (h : cancelled env a = true)
    (hab : a ≤ b) : cancelled env b = true := by
  unfold cancelled at h ⊢
  cases hk : env.cancelAt with
  | none => rw [hk] at h; exact absurd h (by simp)
  | some k =>
    rw [hk] at h
    simp only [decide_eq_true_eq] at h ⊢
    omega

/-- A never-cancelled context is observed as not cancelled at every
check. -/
lemma cancelled_none {env : Env} (h : env.cancelAt = none) (k : Nat) :
    cancelled env k = false := by
  unfold cancelled
  rw [h]

/-- Appending an event changes only the trace. -/
lemma emit_checks (s : St) (e : Event) : (emit s e).checks = s.checks := rfl

/-- `errorMail` appends exactly one `Error` event per mail, in order,
and changes nothing else. -/
lemma errorMail_eq (e : Err) :
    ∀ (ms : List MMail) (s : St),
      errorMail e ms s
        = { s with events := s.events ++ ms.map fun m => Event.error m.id e } := by
  intro ms
  induction ms with
  | nil => intro s; simp [errorMail]
  | cons m rest ih =>
    intro s
    show errorMail e rest (emit s (.error m.id e)) = _
    rw [ih]
    simp [emit]

/-- `dialHost` observes an already-set cancellation signal before any
attempt and returns the `(nil, nil)` pair at once: no dial is made. -/
lemma dialHost_cancelled {env : Env} {s : St}
    (h : cancelled env s.checks = true) :
    dialHost env s = (.cancelled, { s with checks := s.checks + 1 }) := by
  unfold dialHost dialHostLoop
  rw [h]
  simp

/-- When the next `fuel + 1` dial attempts all fail and no cancellation
is observed over them, `dialHostLoop` performs exactly those attempts
and fails wrapping the last attempt's error. -/
lemma dialHostLoop_allFail {env : Env} :
    ∀ (fuel : Nat) (s : St),
      (∀ k, k ≤ fuel → env.dialOk (s.dials + k) = false) →
      (∀ k, k ≤ fuel → cancelled env (s.checks + k) = false) →
      dialHostLoop env fuel s
        = (.failed (.maxAttempts (.dial (s.dials + fuel))),
           { s with checks := s.checks + fuel + 1, dials := s.dials + fuel + 1 }) := by
  intro fuel
  induction fuel with
  | zero =>
    intro s hd hc
    unfold dialHostLoop
    rw [show cancelled env s.checks = false from by simpa using hc 0 (le_refl 0)]
    simp only [Bool.false_eq_true, if_false]
    rw [show env.dialOk s.dials = false from by simpa using hd 0 (le_refl 0)]
    simp
  | succ f ih =>
    intro s hd hc
    unfold dialHostLoop
    rw [show cancelled env s.checks = false from by simpa using hc 0 (by omega)]
    simp only [Bool.false_eq_true, if_false]
    rw [show env.dialOk s.dials = false from by simpa using hd 0 (by omega)]
    simp only [Bool.false_eq_true, if_false]
    rw [ih { s with checks := s.checks + 1, dials := s.dials + 1 }
      (fun k hk => by
        have := hd (k + 1) (by omega)
        simpa [Nat.add_assoc, Nat.add_comm 1 k] using this)
      (fun k hk => by
        have := hc (k + 1) (by omega)
        simpa [Nat.add_assoc, Nat.add_comm 1 k] using this)]
    simp only [Prod.mk.injEq, DialResult.failed.injEq, Err.maxAttempts.injEq,
      Err.dial.injEq, St.mk.injEq, and_true, true_and]
    omega

/-- When the signal is clear and the next dial succeeds, `dialHost`
returns a fresh connection after exactly one attempt. -/
lemma dialHost_firstOk {env : Env} {s : St}
    (hc : cancelled env s.checks = false) (hd : env.dialOk s.dials = true) :
    dialHost env s
      = (.ok s.nextConn,
         { s with checks := s.checks + 1, dials := s.dials + 1,
                  nextConn := s.nextConn + 1 }) := by
  unfold dialHost dialHostLoop
  rw [hc, hd]
  simp

/-- If the first `k` attempts fail without an observed cancellation and
cancellation is observed at the `k`-th check, `dialHostLoop` returns the
`(nil, nil)` pair having made exactly `k` dials. -/
lemma dialHostLoop_cancelMid {env : Env} :
    ∀ (k fuel : Nat) (s : St), k ≤ fuel →
      (∀ j, j < k → env.dialOk (s.dials + j) = false) →
      (∀ j, j < k → cancelled env (s.checks + j) = false) →
      cancelled env (s.checks + k) = true →
      dialHostLoop env fuel s
        = (.cancelled, { s with checks := s.checks + k + 1, dials := s.dials + k }) := by
  intro k
  induction k with
  | zero =>
    intro fuel s _ _ _ hcan
    unfold dialHostLoop
    rw [show cancelled env s.checks = true from by simpa using hcan]
    simp
  | succ k ih =>
    intro fuel s hkf hd hc hcan
    obtain ⟨f, rfl⟩ : ∃ f, fuel = f + 1 := ⟨fuel - 1, by omega⟩
    unfold dialHostLoop
    rw [show cancelled env s.checks = false from by simpa using hc 0 (by omega)]
    simp only [Bool.false_eq_true, if_false]
    rw [show env.dialOk s.dials = false from by simpa using hd 0 (by omega)]
    simp only [Bool.false_eq_true, if_false]
    rw [ih f { s with checks := s.checks + 1, dials := s.dials + 1 } (by omega)
      (fun j hj => by
        have := hd (j + 1) (by omega)
        simpa [Nat.add_assoc, Nat.add_comm 1 j] using this)
      (fun j hj => by
        have := hc (j + 1) (by omega)
        simpa [Nat.add_assoc, Nat.add_comm 1 j] using this)
      (by
        have := hcan
        simpa [Nat.add_assoc, Nat.add_comm 1 k] using this)]
    simp only [Prod.mk.injEq, St.mk.injEq, and_true, true_and]
    omega

/-- A `(nil, nil)` return of `dialHostLoop` can only come from an
observed cancellation, so the signal is still observed at the returned
state's check counter. -/
lemma dialHostLoop_cancelled_sticky {env : Env} :
    ∀ (fuel : Nat) (s s2 : St), dialHostLoop env fuel s = (.cancelled, s2) →
      cancelled env s2.checks = true := by
  intro fuel
  induction fuel with
  | zero =>
    intro s s2 h
    unfold dialHostLoop at h
    by_cases hc : cancelled env s.checks = true
    · rw [hc] at h
      simp only [if_true, Prod.mk.injEq] at h
      have : s2.checks = s.checks + 1 := by rw [← h.2]
      rw [this]
      exact cancelled_mono hc (by omega)
    · rw [Bool.not_eq_true] at hc
      rw [hc] at h
      simp only [Bool.false_eq_true, if_false] at h
      by_cases hdk : env.dialOk s.dials = true
      · rw [hdk] at h; simp at h
      · rw [Bool.not_eq_true] at hdk
        rw [hdk] at h; simp at h
  | succ f ih =>
    intro s s2 h
    unfold dialHostLoop at h
    by_cases hc : cancelled env s.checks = true
    · rw [hc] at h
      simp only [if_true, Prod.mk.injEq] at h
      have : s2.checks = s.checks + 1 := by rw [← h.2]
      rw [this]
      exact cancelled_mono hc (by omega)
    · rw [Bool.not_eq_true] at hc
      rw [hc] at h
      simp only [Bool.false_eq_true, if_false] at h
      by_cases hdk : env.dialOk s.dials = true
      · rw [hdk] at h; simp at h
      · rw [Bool.not_eq_true] at hdk
        rw [hdk] at h
        simp only [Bool.false_eq_true, if_false] at h
        exact ih _ _ h

/-- `dialHost` version of `dialHostLoop_cancelled_sticky`. -/
lemma dialHost_cancelled_sticky {env : Env} {s s2 : St}
    (h : dialHost env s = (.cancelled, s2)) : cancelled env s2.checks = true :=
  dialHostLoop_cancelled_sticky _ _ _ h

/-- On an empty batch the loop goes straight to the deferred close. -/
lemma sendLoop_nil (env : Env) (conn : Option Nat) (s : St) :
    sendLoop env [] conn s = closeConn conn s := rfl

/-- An observed cancellation at the per-mail check makes the loop
return at once, running only the deferred close. -/
lemma sendLoop_step_cancelled {env : Env} {s : St}
    (m : MMail) (rest : List MMail) (conn : Option Nat)
    (hc : cancelled env s.checks = true) :
    sendLoop env (m :: rest) conn s
      = closeConn conn { s with checks := s.checks + 1 } := by
  conv_lhs => unfold sendLoop
  rw [hc, if_pos rfl]

/-- A `Generate` failure errors that mail only and continues, leaving
the connection untouched. -/
lemma sendLoop_step_genFail {env : Env} {s : St} {m : MMail} {eid : Nat}
    (rest : List MMail) (conn : Option Nat)
    (hc : cancelled env s.checks = false) (hg : m.gen = .fail eid) :
    sendLoop env (m :: rest) conn s
      = sendLoop env rest conn
          { s with checks := s.checks + 1,
                   events := s.events ++ [.error m.id (.gen eid)] } := by
  conv_lhs => unfold sendLoop
  rw [hc, if_neg Bool.false_ne_true, hg]
  rfl

/-- A successful send notifies `Success` and continues on the same
connection. -/
lemma sendLoop_step_sendOk {env : Env} {s : St} {m : MMail} {c : Nat}
    (rest : List MMail)
    (hc : cancelled env s.checks = false) (hg : m.gen = .ok)
    (hs : m.send = .ok) :
    sendLoop env (m :: rest) (some c) s
      = sendLoop env rest (some c)
          { s with checks := s.checks + 1,
                   events := s.events ++ [.sent c m.id, .success m.id] } := by
  conv_lhs => unfold sendLoop
  rw [hc, if_neg Bool.false_ne_true, hg, hs]
  dsimp only
  congr 1
  simp [emit]

/-- A protocol failure with a 4xx code notifies `Backoff`, resets the
connection, and continues on it. -/
lemma sendLoop_step_proto4 {env : Env} {s : St} {m : MMail} {c code : Nat}
    (rest : List MMail)
    (hc : cancelled env s.checks = false) (hg : m.gen = .ok)
    (hs : m.send = .proto code) (h4a : 400 ≤ code) (h4b : code ≤ 499) :
    sendLoop env (m :: rest) (some c) s
      = sendLoop env rest (some c)
          { s with checks := s.checks + 1,
                   events := s.events
                     ++ [.sent c m.id, .backoff m.id (.proto code), .reset c] } := by
  conv_lhs => unfold sendLoop
  rw [hc, if_neg Bool.false_ne_true, hg, hs]
  dsimp only
  rw [if_pos ⟨h4a, h4b⟩]
  congr 1
  simp [emit]

/-- A protocol failure with any non-4xx code notifies `Error`, resets
the connection, and continues on it (the 5xx case and the unrecognized
case of the source behave identically). -/
lemma sendLoop_step_protoE {env : Env} {s : St} {m : MMail} {c code : Nat}
    (rest : List MMail)
    (hc : cancelled env s.checks = false) (hg : m.gen = .ok)
    (hs : m.send = .proto code) (h4 : ¬(400 ≤ code ∧ code ≤ 499)) :
    sendLoop env (m :: rest) (some c) s
      = sendLoop env rest (some c)
          { s with checks := s.checks + 1,
                   events := s.events
                     ++ [.sent c m.id, .error m.id (.proto code), .reset c] } := by
  conv_lhs => unfold sendLoop
  rw [hc, if_neg Bool.false_ne_true, hg, hs]
  dsimp only
  rw [if_neg h4]
  by_cases h5 : 500 ≤ code ∧ code ≤ 599
  · rw [if_pos h5]
    congr 1
    simp [emit]
  · rw [if_neg h5]
    congr 1
    simp [emit]

/-- A connection-level send failure followed by a failed reconnection
errors out the failed mail and every remaining mail, and the loop
breaks; the deferred close then runs on the reassigned nil sender. -/
lemma sendLoop_step_connE_failed {env : Env} {s s2 : St} {m : MMail}
    {c eid : Nat} {e : Err} (rest : List MMail)
    (hc : cancelled env s.checks = false) (hg : m.gen = .ok)
    (hs : m.send = .connE eid)
    (hd : dialHost env (emit { s with checks := s.checks + 1 } (.sent c m.id))
            = (.failed e, s2)) :
    sendLoop env (m :: rest) (some c) s
      = { s2 with events := s2.events ++ (m :: rest).map fun x => Event.error x.id e,
                  panicked := true } := by
  conv_lhs => unfold sendLoop
  rw [hc, if_neg Bool.false_ne_true, hg, hs]
  dsimp only
  rw [hd]
  dsimp only
  rw [show closeConn none (errorMail e (m :: rest) s2)
        = { errorMail e (m :: rest) s2 with panicked := true } from rfl]
  rw [errorMail_eq]

/-- A connection-level send failure followed by a successful
reconnection notifies `Backoff` with the original error and continues
on the new connection. -/
lemma sendLoop_step_connE_ok {env : Env} {s s2 : St} {m : MMail}
    {c c2 eid : Nat} (rest : List MMail)
    (hc : cancelled env s.checks = false) (hg : m.gen = .ok)
    (hs : m.send = .connE eid)
    (hd : dialHost env (emit { s with checks := s.checks + 1 } (.sent c m.id))
            = (.ok c2, s2)) :
    sendLoop env (m :: rest) (some c) s
      = sendLoop env rest (some c2) (emit s2 (.backoff m.id (.conn eid))) := by
  conv_lhs => unfold sendLoop
  rw [hc, if_neg Bool.false_ne_true, hg, hs]
  dsimp only
  rw [hd]

/-- A connection-level send failure followed by a reconnection that
observes cancellation: `dialHost` returns `(nil, nil)`, the nil-error
check passes, and the failed mail still receives `Backoff`; the loop
continues with a nil sender. -/
lemma sendLoop_step_connE_cancelled {env : Env} {s s2 : St} {m : MMail}
    {c eid : Nat} (rest : List MMail)
    (hc : cancelled env s.checks = false) (hg : m.gen = .ok)
    (hs : m.send = .connE eid)
    (hd : dialHost env (emit { s with checks := s.checks + 1 } (.sent c m.id))
            = (.cancelled, s2)) :
    sendLoop env (m :: rest) (some c) s
      = sendLoop env rest none (emit s2 (.backoff m.id (.conn eid))) := by
  conv_lhs => unfold sendLoop
  rw [hc, if_neg Bool.false_ne_true, hg, hs]
  dsimp only
  rw [hd]

/-- In a never-cancelled run in which every mail generates successfully
and none hits a connection-level send failure, `sendLoop` walks the
whole batch on its one connection: per mail one check and the events of
`stepEvents`, then the deferred close of the connection. -/
lemma sendLoop_tame {env : Env} (hca : env.cancelAt = none) :
    ∀ (ms : List MMail),
      (∀ x ∈ ms, x.gen = .ok ∧ ∀ e, x.send ≠ .connE e) →
      ∀ (c : Nat) (s : St),
        sendLoop env ms (some c) s
          = { s with checks := s.checks + ms.length,
                     events := s.events ++ tameEvents c ms } := by
  intro ms
  induction ms with
  | nil =>
    intro _ c s
    simp [sendLoop, closeConn, emit, tameEvents]
  | cons m rest ih =>
    intro hms c s
    obtain ⟨hg, hsnd⟩ := hms m (List.mem_cons_self m rest)
    have hrest := fun x hx => hms x (List.mem_cons_of_mem m hx)
    cases hs : m.send with
    | ok =>
      rw [sendLoop_step_sendOk rest (cancelled_none hca _) hg hs, ih hrest]
      simp [St.mk.injEq, tameEvents, stepEvents, hs]
      all_goals omega
    | proto code =>
      by_cases h4 : 400 ≤ code ∧ code ≤ 499
      · rw [sendLoop_step_proto4 rest (cancelled_none hca _) hg hs h4.1 h4.2, ih hrest]
        simp [St.mk.injEq, tameEvents, stepEvents, hs, h4]
        all_goals omega
      · rw [sendLoop_step_protoE rest (cancelled_none hca _) hg hs h4, ih hrest]
        simp [St.mk.injEq, tameEvents, stepEvents, hs, h4]
        all_goals omega
    | connE eid => exact absurd hs (hsnd eid)

/-- Every mail of a tame batch has its send attempt on the batch's
connection recorded in `tameEvents`. -/
lemma sent_mem_tameEvents {c : Nat} :
    ∀ (ms : List MMail) (x : MMail), x ∈ ms →
      (∀ e, x.send ≠ .connE e) → Event.sent c x.id ∈ tameEvents c ms := by
  intro ms
  induction ms with
  | nil => intro x hx; exact absurd hx (List.not_mem_nil x)
  | cons m rest ih =>
    intro x hx hsnd
    rcases List.mem_cons.mp hx with h | h
    · subst h
      unfold tameEvents stepEvents
      cases hs : x.send with
      | ok => simp
      | proto code =>
        by_cases h4 : 400 ≤ code ∧ code ≤ 499
        · simp [h4]
        · simp [h4]
      | connE eid => exact absurd hs (hsnd eid)
    · unfold tameEvents
      exact List.mem_append_right _ (ih x h hsnd)

/-- When the mail generates successfully but the sender variable holds
nil (after a cancelled dial), the send call panics. -/
lemma sendLoop_step_nilSender {env : Env} {s : St} {m : MMail}
    (rest : List MMail)
    (hc : cancelled env s.checks = false) (hg : m.gen = .ok) :
    sendLoop env (m :: rest) none s
      = { s with checks := s.checks + 1, panicked := true } := by
  conv_lhs => unfold sendLoop
  rw [hc, if_neg Bool.false_ne_true, hg]

/-- `dialHostLoop` never touches the out-of-bounds flag. -/
lemma dialHostLoop_oob {env : Env} :
    ∀ (fuel : Nat) (s : St), ((dialHostLoop env fuel s).2).oob = s.oob := by
  intro fuel
  induction fuel with
  | zero =>
    intro s
    unfold dialHostLoop
    by_cases hc : cancelled env s.checks = true
    · rw [hc, if_pos rfl]
    · rw [Bool.not_eq_true] at hc
      rw [hc, if_neg Bool.false_ne_true]
      by_cases hd : env.dialOk s.dials = true
      · rw [hd, if_pos rfl]
      · rw [Bool.not_eq_true] at hd
        rw [hd, if_neg Bool.false_ne_true]
  | succ f ih =>
    intro s
    unfold dialHostLoop
    by_cases hc : cancelled env s.checks = true
    · rw [hc, if_pos rfl]
    · rw [Bool.not_eq_true] at hc
      rw [hc, if_neg Bool.false_ne_true]
      by_cases hd : env.dialOk s.dials = true
      · rw [hd, if_pos rfl]
      · rw [Bool.not_eq_true] at hd
        rw [hd, if_neg Bool.false_ne_true]
        exact ih _

/-- `sendLoop` never touches the out-of-bounds flag. -/
lemma sendLoop_oob {env : Env} :
    ∀ (ms : List MMail) (conn : Option Nat) (s : St),
      (sendLoop env ms conn s).oob = s.oob := by
  intro ms
  induction ms with
  | nil =>
    intro conn s
    rw [sendLoop_nil]
    cases conn with
    | none => rfl
    | some c => rfl
  | cons m rest ih =>
    intro conn s
    by_cases hcy : cancelled env s.checks = true
    · rw [sendLoop_step_cancelled m rest conn hcy]
      cases conn with
      | none => rfl
      | some c => rfl
    · rw [Bool.not_eq_true] at hcy
      cases hg : m.gen with
      | fail eid => rw [sendLoop_step_genFail rest conn hcy hg]; exact ih _ _
      | ok =>
        cases conn with
        | none => rw [sendLoop_step_nilSender rest hcy hg]
        | some c =>
          cases hs : m.send with
          | ok => rw [sendLoop_step_sendOk rest hcy hg hs]; exact ih _ _
          | proto code =>
            by_cases h4 : 400 ≤ code ∧ code ≤ 499
            · rw [sendLoop_step_proto4 rest hcy hg hs h4.1 h4.2]; exact ih _ _
            · rw [sendLoop_step_protoE rest hcy hg hs h4]; exact ih _ _
          | connE eid =>
            rcases hd : dialHost env (emit { s with checks := s.checks + 1 }
                (.sent c m.id)) with ⟨dr, s2⟩
            have hs2 : s2.oob = s.oob := by
              have := @dialHostLoop_oob env (MaxReconnectAttempts - 1)
                (emit { s with checks := s.checks + 1 } (.sent c m.id))
              rw [show dialHostLoop env (MaxReconnectAttempts - 1)
                    (emit { s with checks := s.checks + 1 } (.sent c m.id))
                    = (dr, s2) from hd] at this
              exact this
            cases dr with
            | failed e =>
              rw [sendLoop_step_connE_failed rest hcy hg hs hd]
              exact hs2
            | cancelled =>
              rw [sendLoop_step_connE_cancelled rest hcy hg hs hd]
              rw [ih]
              exact hs2
            | ok c2 =>
              rw [sendLoop_step_connE_ok rest hcy hg hs hd]
              rw [ih]
              exact hs2

/-- `sendMail` never touches the out-of-bounds flag. -/
lemma sendMail_oob {env : Env} (ms : List MMail) (s : St) :
    (sendMail env ms s).oob = s.oob := by
  unfold sendMail
  rcases hd : dialHost env s with ⟨dr, s2⟩
  have hs2 : s2.oob = s.oob := by
    have := @dialHostLoop_oob env (MaxReconnectAttempts - 1) s
    rw [show dialHostLoop env (MaxReconnectAttempts - 1) s = (dr, s2) from hd] at this
    exact this
  cases dr with
  | failed e => dsimp only; rw [errorMail_eq]; exact hs2
  | cancelled => dsimp only; rw [sendLoop_oob]; exact hs2
  | ok c => dsimp only; rw [sendLoop_oob]; exact hs2

/-- `sendDelayedMail` never touches the out-of-bounds flag. -/
lemma sendDelayedMail_oob {env : Env} :
    ∀ (ms : List MMail) (s : St), (sendDelayedMail env ms s).oob = s.oob := by
  intro ms
  induction ms with
  | nil => intro s; rfl
  | cons m rest ih =>
    intro s
    unfold sendDelayedMail
    by_cases hc : cancelled env s.checks = true
    · rw [hc, if_pos rfl]
    · rw [Bool.not_eq_true] at hc
      rw [hc, if_neg Bool.false_ne_true, ih, sendMail_oob]
      rfl

/-- A single all-successful paced delivery: fresh connection, one send,
one success callback, one close. -/
lemma sendMail_single_ok {env : Env} {m : MMail} {s : St}
    (hca : env.cancelAt = none) (hd : env.dialOk s.dials = true)
    (hg : m.gen = .ok) (hs : m.send = .ok) :
    sendMail env [m] s
      = { s with checks := s.checks + 2, dials := s.dials + 1,
                 nextConn := s.nextConn + 1,
                 events := s.events
                   ++ [.sent s.nextConn m.id, .success m.id, .close s.nextConn] } := by
  unfold sendMail
  rw [dialHost_firstOk (cancelled_none hca _) hd]
  dsimp only
  rw [sendLoop_tame hca [m]
    (by intro x hx; rw [List.mem_singleton] at hx; subst hx
        exact ⟨hg, fun e he => by rw [hs] at he; exact SendRes.noConfusion he⟩)]
  simp [St.mk.injEq, tameEvents, stepEvents, hs]

/-- An all-successful paced run: per mail one timer tick, one fresh
connection, one send, one success, one close of that connection. -/
lemma sendDelayedMail_allOk {env : Env} (hca : env.cancelAt = none)
    (hdial : ∀ n, env.dialOk n = true) :
    ∀ (ms : List MMail), (∀ x ∈ ms, x.gen = .ok ∧ x.send = .ok) →
      ∀ (s : St),
        sendDelayedMail env ms s
          = { s with checks := s.checks + 3 * ms.length,
                     dials := s.dials + ms.length,
                     nextConn := s.nextConn + ms.length,
                     events := s.events ++ delayedEvents s.nextConn ms } := by
  intro ms
  induction ms with
  | nil => intro _ s; simp [sendDelayedMail, delayedEvents]
  | cons m rest ih =>
    intro hms s
    obtain ⟨hg, hs⟩ := hms m (List.mem_cons_self m rest)
    have hrest := fun x hx => hms x (List.mem_cons_of_mem m hx)
    conv_lhs => unfold sendDelayedMail
    rw [cancelled_none hca, if_neg Bool.false_ne_true]
    rw [show sendMail env [m] (emit { s with checks := s.checks + 1 } .tick)
          = _ from sendMail_single_ok hca (hdial _) hg hs]
    rw [ih hrest]
    simp [St.mk.injEq, delayedEvents, emit]
    all_goals omega

end Mailer

namespace Mailer

/-- C6: for every dial capability and state, connection acquisition
(i) returns immediately with both the connection and the error absent
(`(nil, nil)`, modelled by `DialResult.cancelled`) when the
cancellation signal is already set, making no dial attempt; (ii) when
the next `MaxReconnectAttempts` (10) dial attempts all fail and no
cancellation is observed over them, performs exactly those 10 attempts
and returns the `ErrMaxConnectAttempts` error wrapping the last
underlying dial error; and (iii) checks the cancellation signal before
each attempt: if it becomes set after `k < 10` failed attempts, it
returns `(nil, nil)` having dialed exactly `k` times. -/
theorem C6_dialHost_retry_policy (env : Env) (s : St) :
    (cancelled env s.checks = true →
      dialHost env s = (.cancelled, { s with checks := s.checks + 1 }))
  ∧ ((∀ k, k < MaxReconnectAttempts → env.dialOk (s.dials + k) = false) →
     (∀ k, k < MaxReconnectAttempts → cancelled env (s.checks + k) = false) →
      dialHost env s
        = (.failed (.maxAttempts (.dial (s.dials + (MaxReconnectAttempts - 1)))),
           { s with checks := s.checks + MaxReconnectAttempts,
                    dials := s.dials + MaxReconnectAttempts }))
  ∧ (∀ k, k < MaxReconnectAttempts →
     (∀ j, j < k → env.dialOk (s.dials + j) = false) →
     (∀ j, j < k → cancelled env (s.checks + j) = false) →
      cancelled env (s.checks + k) = true →
      dialHost env s
        = (.cancelled, { s with checks := s.checks + k + 1, dials := s.dials + k })) := by
  refine ⟨fun hc => dialHost_cancelled hc, fun h1 h2 => ?_, fun k hk h1 h2 hcan => ?_⟩
  · exact dialHostLoop_allFail 9 s
      (fun k hk => h1 k (show k < 10 by omega))
      (fun k hk => h2 k (show k < 10 by omega))
  · have hk10 : k < 10 := hk
    exact dialHostLoop_cancelMid k 9 s (by omega) h1 h2 hcan

/-- Witness for C6: concrete instantiations of all three parts — an
already-cancelled context dials zero times, ten failing dials produce
the wrapping error, and a cancellation arriving after three failed
dials stops the retry there. -/
theorem C6_dialHost_retry_policy_witness :
    dialHost ⟨some 0, fun _ => true⟩ {} = (.cancelled, { checks := 1 })
  ∧ dialHost ⟨none, fun _ => false⟩ {}
      = (.failed (.maxAttempts (.dial 9)), { checks := 10, dials := 10 })
  ∧ dialHost ⟨some 3, fun _ => false⟩ {} = (.cancelled, { checks := 4, dials := 3 }) :=
  ⟨(C6_dialHost_retry_policy ⟨some 0, fun _ => true⟩ {}).1 (by decide),
   (C6_dialHost_retry_policy ⟨none, fun _ => false⟩ {}).2.1 (by decide) (by decide),
   (C6_dialHost_retry_policy ⟨some 3, fun _ => false⟩ {}).2.2 3 (by decide) (by decide)
     (by decide) (by decide)⟩

/-- C3: a mail whose send fails with a protocol code in 400–499
receives exactly one `Backoff` with that error as reason, the
connection is reset exactly once, and the loop continues to the next
mail of the batch on the same connection; the backoff is the only
outcome notified in this step. -/
theorem C3_proto4xx_backoff_reset_continue (env : Env) (m : MMail)
    (rest : List MMail) (c code : Nat) (s : St)
    (hc : cancelled env s.checks = false) (hg : m.gen = .ok)
    (hs : m.send = .proto code) (h4a : 400 ≤ code) (h4b : code ≤ 499) :
    sendLoop env (m :: rest) (some c) s
      = sendLoop env rest (some c)
          { s with checks := s.checks + 1,
                   events := s.events
                     ++ [.sent c m.id, .backoff m.id (.proto code), .reset c] }
  ∧ ([Event.sent c m.id, .backoff m.id (.proto code), .reset c].count
       (Event.backoff m.id (.proto code)) = 1)
  ∧ ([Event.sent c m.id, .backoff m.id (.proto code), .reset c].count
       (Event.reset c) = 1)
  ∧ ([Event.sent c m.id, .backoff m.id (.proto code), .reset c].filter
       (fun ev => ev.isOutcome) = [Event.backoff m.id (.proto code)]) := by
  refine ⟨sendLoop_step_proto4 rest hc hg hs h4a h4b, ?_, ?_, ?_⟩
  · simp [List.count_cons]
  · simp [List.count_cons]
  · simp [Event.isOutcome]

/-- Witness for C3: a concrete two-mail batch whose first send fails
with code 452. -/
theorem C3_proto4xx_witness :
    sendLoop ⟨none, fun _ => true⟩
        [⟨7, .ok, .proto 452, none⟩, ⟨8, .ok, .ok, none⟩] (some 0) {}
      = sendLoop ⟨none, fun _ => true⟩ [⟨8, .ok, .ok, none⟩] (some 0)
          { checks := 1,
            events := [.sent 0 7, .backoff 7 (.proto 452), .reset 0] }
  ∧ ([Event.sent 0 7, .backoff 7 (.proto 452), .reset 0].count
       (Event.backoff 7 (.proto 452)) = 1) :=
  ⟨(C3_proto4xx_backoff_reset_continue ⟨none, fun _ => true⟩ ⟨7, .ok, .proto 452, none⟩
      [⟨8, .ok, .ok, none⟩] 0 452 {} (by decide) rfl rfl (by decide) (by decide)).1,
   (C3_proto4xx_backoff_reset_continue ⟨none, fun _ => true⟩ ⟨7, .ok, .proto 452, none⟩
      [⟨8, .ok, .ok, none⟩] 0 452 {} (by decide) rfl rfl (by decide) (by decide)).2.1⟩

/-- C4: a mail whose send fails with a protocol code in 500–599, or
with any protocol code outside 400–599, receives exactly one `Error`
(permanent) with that error as reason, the connection is reset, and the
loop continues to the next mail on the same connection; the error is
the only outcome notified in this step. -/
theorem C4_protoPermanent_error_reset_continue (env : Env) (m : MMail)
    (rest : List MMail) (c code : Nat) (s : St)
    (hc : cancelled env s.checks = false) (hg : m.gen = .ok)
    (hs : m.send = .proto code) (h4 : ¬(400 ≤ code ∧ code ≤ 499)) :
    sendLoop env (m :: rest) (some c) s
      = sendLoop env rest (some c)
          { s with checks := s.checks + 1,
                   events := s.events
                     ++ [.sent c m.id, .error m.id (.proto code), .reset c] }
  ∧ ([Event.sent c m.id, .error m.id (.proto code), .reset c].count
       (Event.error m.id (.proto code)) = 1)
  ∧ ([Event.sent c m.id, .error m.id (.proto code), .reset c].count
       (Event.reset c) = 1)
  ∧ ([Event.sent c m.id, .error m.id (.proto code), .reset c].filter
       (fun ev => ev.isOutcome) = [Event.error m.id (.proto code)]) := by
  refine ⟨sendLoop_step_protoE rest hc hg hs h4, ?_, ?_, ?_⟩
  · simp [List.count_cons]
  · simp [List.count_cons]
  · simp [Event.isOutcome]

/-- Witness for C4: concrete single-mail batches failing with code 550
(5xx) and with code 250 (outside 400–599). -/
theorem C4_protoPermanent_witness :
    sendLoop ⟨none, fun _ => true⟩ [⟨3, .ok, .proto 550, none⟩] (some 1) {}
      = sendLoop ⟨none, fun _ => true⟩ [] (some 1)
          { checks := 1, events := [.sent 1 3, .error 3 (.proto 550), .reset 1] }
  ∧ sendLoop ⟨none, fun _ => true⟩ [⟨4, .ok, .proto 250, none⟩] (some 1) {}
      = sendLoop ⟨none, fun _ => true⟩ [] (some 1)
          { checks := 1, events := [.sent 1 4, .error 4 (.proto 250), .reset 1] } :=
  ⟨(C4_protoPermanent_error_reset_continue ⟨none, fun _ => true⟩ ⟨3, .ok, .proto 550, none⟩
      [] 1 550 {} (by decide) rfl rfl (by decide)).1,
   (C4_protoPermanent_error_reset_continue ⟨none, fun _ => true⟩ ⟨4, .ok, .proto 250, none⟩
      [] 1 250 {} (by decide) rfl rfl (by decide)).1⟩


/-- C1: when a mail's send fails with a connection-level error and the
subsequent reconnection fails, that mail and every remaining mail of
the batch each receive exactly one permanent `Error` callback (with
the reconnection error as reason) and no further send is attempted:
the step appends exactly the send attempt of the failed mail followed
by the one error callback per remaining mail, and nothing else. -/
theorem C1_reconnectFailure_errors_remaining (env : Env) (m : MMail)
    (rest : List MMail) (c eid : Nat) (s s2 : St) (e : Err)
    (hc : cancelled env s.checks = false) (hg : m.gen = .ok)
    (hs : m.send = .connE eid)
    (hd : dialHost env (emit { s with checks := s.checks + 1 } (.sent c m.id))
            = (.failed e, s2))
    (hids : ((m :: rest).map MMail.id).Nodup) :
    sendLoop env (m :: rest) (some c) s
      = { s2 with events := s2.events ++ (m :: rest).map fun x => Event.error x.id e,
                  panicked := true }
  ∧ (∀ x ∈ m :: rest,
      ((m :: rest).map fun y => Event.error y.id e).count (Event.error x.id e) = 1)
  ∧ (∀ ev ∈ (m :: rest).map fun y => Event.error y.id e, ev.isSent = false) := by
  refine ⟨sendLoop_step_connE_failed rest hc hg hs hd, ?_, ?_⟩
  · intro x hx
    have hco : (fun y : MMail => Event.error y.id e)
        = (fun i => Event.error i e) ∘ MMail.id := rfl
    rw [hco, ← List.map_map]
    rw [List.count_map_of_injective _ (fun i => Event.error i e)
      (fun a b h => by simpa using h) x.id]
    exact List.count_eq_one_of_mem hids (List.mem_map_of_mem MMail.id hx)
  · intro ev hev
    rw [List.mem_map] at hev
    obtain ⟨y, _, rfl⟩ := hev
    rfl

/-- Witness for C1: a concrete two-mail batch on connection 5 whose
first send hits a connection-level error and whose reconnection fails
after the ten dial attempts; both mails are errored out once. -/
theorem C1_reconnectFailure_witness :
    sendLoop ⟨none, fun _ => false⟩
        [⟨0, .ok, .connE 7, none⟩, ⟨1, .ok, .ok, none⟩] (some 5) {}
      = { checks := 11, dials := 10, nextConn := 0,
          events := [.sent 5 0, .error 0 (.maxAttempts (.dial 9)),
                     .error 1 (.maxAttempts (.dial 9))],
          panicked := true, oob := false }
  ∧ ([Event.error 0 (.maxAttempts (.dial 9)), .error 1 (.maxAttempts (.dial 9))].count
       (Event.error 0 (.maxAttempts (.dial 9))) = 1) := by
  have hd : dialHost ⟨none, fun _ => false⟩
      (emit { ({} : St) with checks := ({} : St).checks + 1 } (.sent 5 0))
      = (.failed (.maxAttempts (.dial 9)),
         { checks := 11, dials := 10, events := [.sent 5 0] }) :=
    dialHostLoop_allFail 9 _ (fun k _ => rfl) (fun k _ => rfl)
  have h := C1_reconnectFailure_errors_remaining ⟨none, fun _ => false⟩
    ⟨0, .ok, .connE 7, none⟩ [⟨1, .ok, .ok, none⟩] 5 7
    {} { checks := 11, dials := 10, events := [.sent 5 0] } (.maxAttempts (.dial 9))
    rfl rfl rfl hd (by decide)
  exact ⟨by rw [h.1]; rfl, by decide⟩

/-- C2: when a mail's send fails with a connection-level error and the
subsequent reconnection succeeds, that mail receives `Backoff` with the
original send error, and every following mail of the batch is attempted
on the newly acquired connection (shown here for a remainder free of
further connection-level failures, with generation succeeding and no
cancellation). -/
theorem C2_reconnectSuccess_backoff_continue (env : Env) (m : MMail)
    (rest : List MMail) (c eid c2 : Nat) (s s2 : St)
    (hca : env.cancelAt = none) (hg : m.gen = .ok) (hs : m.send = .connE eid)
    (hd : dialHost env (emit { s with checks := s.checks + 1 } (.sent c m.id))
            = (.ok c2, s2))
    (hrest : ∀ x ∈ rest, x.gen = .ok ∧ ∀ e, x.send ≠ .connE e) :
    sendLoop env (m :: rest) (some c) s
      = sendLoop env rest (some c2) (emit s2 (.backoff m.id (.conn eid)))
  ∧ (sendLoop env (m :: rest) (some c) s).events
      = s2.events ++ [.backoff m.id (.conn eid)] ++ tameEvents c2 rest
  ∧ ∀ x ∈ rest, Event.sent c2 x.id ∈ (sendLoop env (m :: rest) (some c) s).events := by
  have hstep := sendLoop_step_connE_ok rest (cancelled_none hca _) hg hs hd
  have htame := sendLoop_tame hca rest hrest c2 (emit s2 (.backoff m.id (.conn eid)))
  refine ⟨hstep, ?_, ?_⟩
  · rw [hstep, htame]
    rfl
  · intro x hx
    rw [hstep, htame]
    show Event.sent c2 x.id ∈ (emit s2 (.backoff m.id (.conn eid))).events ++ tameEvents c2 rest
    exact List.mem_append_right _ (sent_mem_tameEvents rest x hx (hrest x hx).2)

/-- Witness for C2: a concrete two-mail batch on connection 5 whose
first send hits a connection-level error; the reconnection succeeds at
once (fresh connection 0), the failed mail is backed off with the
original error, and the second mail is sent on connection 0. -/
theorem C2_reconnectSuccess_witness :
    (sendLoop ⟨none, fun _ => true⟩
        [⟨0, .ok, .connE 9, none⟩, ⟨1, .ok, .ok, none⟩] (some 5) {}).events
      = [.sent 5 0, .backoff 0 (.conn 9), .sent 0 1, .success 1, .close 0]
  ∧ Event.sent 0 1 ∈ (sendLoop ⟨none, fun _ => true⟩
        [⟨0, .ok, .connE 9, none⟩, ⟨1, .ok, .ok, none⟩] (some 5) {}).events := by
  have hd : dialHost ⟨none, fun _ => true⟩
      (emit { ({} : St) with checks := ({} : St).checks + 1 } (.sent 5 0))
      = (.ok 0, { checks := 2, dials := 1, nextConn := 1, events := [.sent 5 0] }) :=
    dialHost_firstOk rfl rfl
  have h := C2_reconnectSuccess_backoff_continue ⟨none, fun _ => true⟩
    ⟨0, .ok, .connE 9, none⟩ [⟨1, .ok, .ok, none⟩] 5 9 0
    {} { checks := 2, dials := 1, nextConn := 1, events := [.sent 5 0] }
    rfl rfl rfl hd
    (by intro x hx
        rw [List.mem_singleton] at hx
        subst hx
        exact ⟨rfl, fun e h => SendRes.noConfusion h⟩)
  exact ⟨by rw [h.2.1]; rfl, h.2.2 ⟨1, .ok, .ok, none⟩ (by decide)⟩


/-- C7 counterexample: with cancellation observed from select-check 2
onward, the single mail's send hits a connection-level error after
checks 0 and 1; the mid-batch reconnection observes the cancellation
(its `dialHost` returns the `(nil, nil)` pair), yet the mail — which
had no outcome notified before that observation — still receives a
`Backoff` callback afterwards, refuting "no message at or after the
cancellation point ever receives any outcome notification". -/
theorem C7_cancelDuringReconnect_counterexample :
    (dialHost ⟨some 2, fun n => n == 0⟩
        { checks := 2, dials := 1, nextConn := 1, events := [.sent 0 0] }).1
      = .cancelled
  ∧ (∀ ev ∈ [Event.sent 0 0], ev.isOutcome = false)
  ∧ (sendMail ⟨some 2, fun n => n == 0⟩ [⟨0, .ok, .connE 3, none⟩] {}).events
      = [.sent 0 0, .backoff 0 (.conn 3)] := by decide

/-- C7 (amended): when cancellation is observed at a per-mail check the
loop returns immediately — every outcome event of the final trace was
already present, the only addition being the deferred close (or nothing
when the sender is nil).  When cancellation is observed during a
mid-batch reconnection, however, the mail whose send failed still
receives exactly one `Backoff` with the original error before the loop
stops, and no later mail receives any outcome. -/
theorem C7_cancellation_behavior (env : Env) (m : MMail) (rest : List MMail)
    (s : St) :
    (∀ conn, cancelled env s.checks = true →
      sendLoop env (m :: rest) conn s
        = closeConn conn { s with checks := s.checks + 1 }
      ∧ ∀ ev ∈ (sendLoop env (m :: rest) conn s).events,
          ev.isOutcome = true → ev ∈ s.events)
  ∧ (∀ c eid s2, cancelled env s.checks = false → m.gen = .ok →
      m.send = .connE eid →
      dialHost env (emit { s with checks := s.checks + 1 } (.sent c m.id))
          = (.cancelled, s2) →
      (sendLoop env (m :: rest) (some c) s).events
          = s2.events ++ [.backoff m.id (.conn eid)]
      ∧ (sendLoop env (m :: rest) (some c) s).panicked = true) := by
  constructor
  · intro conn hc
    have hstep := sendLoop_step_cancelled m rest conn hc
    refine ⟨hstep, ?_⟩
    intro ev hev hout
    rw [hstep] at hev
    cases conn with
    | none => exact hev
    | some c =>
      show ev ∈ s.events
      have : ev ∈ s.events ++ [Event.close c] := hev
      rcases List.mem_append.mp this with h | h
      · exact h
      · rw [List.mem_singleton] at h
        subst h
        exact absurd hout (by simp [Event.isOutcome])
  · intro c eid s2 hc hg hs hd
    have hstep := sendLoop_step_connE_cancelled rest hc hg hs hd
    have hsticky0 : cancelled env s2.checks = true := dialHost_cancelled_sticky hd
    have hsticky : cancelled env (emit s2 (.backoff m.id (.conn eid))).checks = true :=
      hsticky0
    cases rest with
    | nil =>
      rw [hstep, sendLoop_nil]
      exact ⟨rfl, rfl⟩
    | cons r rs =>
      rw [hstep, sendLoop_step_cancelled r rs none hsticky]
      exact ⟨rfl, rfl⟩

/-- Witness for C7: an already-cancelled context makes the loop close
the live connection at once; a cancellation arriving during the
mid-batch reconnection still backs off the failed mail and ends the run
in the nil-sender panic. -/
theorem C7_cancellation_witness :
    sendLoop ⟨some 0, fun _ => true⟩ [⟨2, .ok, .ok, none⟩] (some 4) {}
      = closeConn (some 4) { checks := 1 }
  ∧ (sendLoop ⟨some 2, fun n => n == 0⟩ [⟨0, .ok, .connE 3, none⟩] (some 0)
       { checks := 1, dials := 1, nextConn := 1 }).events
      = [.sent 0 0, .backoff 0 (.conn 3)]
  ∧ (sendLoop ⟨some 2, fun n => n == 0⟩ [⟨0, .ok, .connE 3, none⟩] (some 0)
       { checks := 1, dials := 1, nextConn := 1 }).panicked = true := by
  have ha := (C7_cancellation_behavior ⟨some 0, fun _ => true⟩
    ⟨2, .ok, .ok, none⟩ [] {}).1 (some 4) (by decide)
  have hd : dialHost ⟨some 2, fun n => n == 0⟩
      (emit { ({ checks := 1, dials := 1, nextConn := 1 } : St) with checks := 2 }
        (.sent 0 0))
      = (.cancelled, { checks := 3, dials := 1, nextConn := 1, events := [.sent 0 0] }) :=
    dialHost_cancelled (by decide)
  have hb := (C7_cancellation_behavior ⟨some 2, fun n => n == 0⟩
    ⟨0, .ok, .connE 3, none⟩ [] { checks := 1, dials := 1, nextConn := 1 }).2
    0 3 { checks := 3, dials := 1, nextConn := 1, events := [.sent 0 0] }
    (by decide) rfl rfl hd
  exact ⟨ha.1, by rw [hb.1]; rfl, hb.2⟩

/-- C5 (evaluation at the failing input): a batch of one mail whose
send hits a connection-level error, followed by a reconnection whose
ten dial attempts all fail.  Connection 0 was acquired and used (the
`sent` event), but no `close 0` event ever occurs: the deferred
`sender.Close()` runs on the reassigned nil sender and panics, so the
claim that the loop closes the live connection exactly once on the
abort-after-failed-reconnection exit path fails on the code. -/
theorem C5_reconnectFailure_leaks_connection :
    (sendMail ⟨none, fun n => n == 0⟩ [⟨0, .ok, .connE 0, none⟩] {}).panicked = true
  ∧ Event.sent 0 0 ∈ (sendMail ⟨none, fun n => n == 0⟩ [⟨0, .ok, .connE 0, none⟩] {}).events
  ∧ (sendMail ⟨none, fun n => n == 0⟩ [⟨0, .ok, .connE 0, none⟩] {}).events.count
      (Event.close 0) = 0 := by
  have h0 : dialHost ⟨none, fun n => n == 0⟩ {}
      = (.ok 0, { checks := 1, dials := 1, nextConn := 1 }) :=
    dialHost_firstOk rfl rfl
  have hm : sendMail ⟨none, fun n => n == 0⟩ [⟨0, .ok, .connE 0, none⟩] {}
      = sendLoop ⟨none, fun n => n == 0⟩ [⟨0, .ok, .connE 0, none⟩] (some 0)
          { checks := 1, dials := 1, nextConn := 1 } := by
    unfold sendMail
    rw [h0]
  have hd : dialHost ⟨none, fun n => n == 0⟩
      { checks := 2, dials := 1, nextConn := 1, events := [.sent 0 0] }
      = (.failed (.maxAttempts (.dial 10)),
         { checks := 12, dials := 11, nextConn := 1, events := [.sent 0 0] }) :=
    dialHostLoop_allFail 9 _ (fun k _ => by cases k <;> rfl) (fun k _ => rfl)
  have hstep := @sendLoop_step_connE_failed ⟨none, fun n => n == 0⟩
    { checks := 1, dials := 1, nextConn := 1 }
    { checks := 12, dials := 11, nextConn := 1, events := [.sent 0 0] }
    ⟨0, .ok, .connE 0, none⟩ 0 0 (.maxAttempts (.dial 10)) [] rfl rfl rfl hd
  rw [hm, hstep]
  exact ⟨rfl, by decide, by decide⟩

/-- C9: the dispatch body selects the plain delivery loop exactly when
the bundle delay is ≤ 0 and the paced loop when it is > 0 (for a
nonempty bundle whose first mail yields its dialer); and in a paced run
in which every dial and every send succeeds, exactly one mail is
delivered per timer tick, in batch order, each through a fresh
`sendMail` invocation that acquires a fresh connection and closes it
(`delayedEvents` lists one tick, one send on a new connection identity,
one success and one close per mail). -/
theorem C9_pacing_and_dispatch_selection (env : Env) :
    (∀ (m0 : MMail) (rest : List MMail) (d : Int) (s : St),
      m0.dialerErr = none →
      (d ≤ 0 → processBundle env ⟨d, m0 :: rest⟩ s = sendMail env (m0 :: rest) s)
      ∧ (0 < d → processBundle env ⟨d, m0 :: rest⟩ s
            = sendDelayedMail env (m0 :: rest) s))
  ∧ (env.cancelAt = none → (∀ n, env.dialOk n = true) →
      ∀ (ms : List MMail), (∀ x ∈ ms, x.gen = .ok ∧ x.send = .ok) →
      ∀ (s : St),
        sendDelayedMail env ms s
          = { s with checks := s.checks + 3 * ms.length,
                     dials := s.dials + ms.length,
                     nextConn := s.nextConn + ms.length,
                     events := s.events ++ delayedEvents s.nextConn ms }) := by
  constructor
  · intro m0 rest d s hde
    constructor
    · intro hdl
      conv_lhs => unfold processBundle
      dsimp only
      rw [hde]
      dsimp only
      rw [if_pos hdl]
    · intro hdl
      conv_lhs => unfold processBundle
      dsimp only
      rw [hde]
      dsimp only
      rw [if_neg (by omega)]
  · intro hca hdial ms hms s
    exact sendDelayedMail_allOk hca hdial ms hms s

/-- Witness for C9: a zero-delay bundle runs the plain loop, a 3-second
bundle runs the paced loop, and a two-mail all-successful paced run
shows one tick per mail with fresh connections 0 and 1, each closed. -/
theorem C9_pacing_witness :
    processBundle ⟨none, fun _ => true⟩ ⟨0, [⟨0, .ok, .ok, none⟩]⟩ {}
      = sendMail ⟨none, fun _ => true⟩ [⟨0, .ok, .ok, none⟩] {}
  ∧ processBundle ⟨none, fun _ => true⟩ ⟨3, [⟨0, .ok, .ok, none⟩]⟩ {}
      = sendDelayedMail ⟨none, fun _ => true⟩ [⟨0, .ok, .ok, none⟩] {}
  ∧ sendDelayedMail ⟨none, fun _ => true⟩
        [⟨0, .ok, .ok, none⟩, ⟨5, .ok, .ok, none⟩] {}
      = { checks := 6, dials := 2, nextConn := 2,
          events := [.tick, .sent 0 0, .success 0, .close 0,
                     .tick, .sent 1 5, .success 5, .close 1] } := by
  have h := C9_pacing_and_dispatch_selection ⟨none, fun _ => true⟩
  refine ⟨(h.1 ⟨0, .ok, .ok, none⟩ [] 0 {} rfl).1 (by decide),
          (h.1 ⟨0, .ok, .ok, none⟩ [] 3 {} rfl).2 (by decide), ?_⟩
  rw [h.2 rfl (fun n => rfl) [⟨0, .ok, .ok, none⟩, ⟨5, .ok, .ok, none⟩] (by decide) {}]
  rfl

/-- C10 counterexample: the dispatch body reads the first mail's dialer
unconditionally, so an empty bundle is an out-of-range slice index: the
out-of-bounds flag is raised from a clean state. -/
theorem C10_empty_bundle_oob :
    (processBundle ⟨none, fun _ => true⟩ ⟨0, []⟩ {}).oob = true
  ∧ ({} : St).oob = false := by decide

/-- C10 (amended): for every nonempty bundle the dispatch body performs
no out-of-bounds access — the dial capability is read from the first
mail and the whole processing never raises the out-of-bounds flag; only
the empty bundle does (see the counterexample), because the first
element is read unconditionally. -/
theorem C10_nonempty_no_oob (env : Env) (mb : MailBundle) (s : St)
    (h : mb.mails ≠ []) : (processBundle env mb s).oob = s.oob := by
  rcases hm : mb.mails with _ | ⟨m0, rest⟩
  · exact absurd hm h
  · conv_lhs => unfold processBundle
    rw [hm]
    dsimp only
    cases hde : m0.dialerErr with
    | some eid =>
      dsimp only
      rw [errorMail_eq]
    | none =>
      dsimp only
      by_cases hdl : mb.delay ≤ 0
      · rw [if_pos hdl, sendMail_oob]
      · rw [if_neg hdl, sendDelayedMail_oob]

/-- Witness for C10 (amended): a concrete one-mail bundle is processed
with the out-of-bounds flag left clear. -/
theorem C10_nonempty_witness :
    (processBundle ⟨none, fun _ => true⟩ ⟨0, [⟨0, .ok, .ok, none⟩]⟩ {}).oob = false :=
  C10_nonempty_no_oob ⟨none, fun _ => true⟩ ⟨0, [⟨0, .ok, .ok, none⟩]⟩ {} (by decide)

end Mailer

namespace Webhook

/-- The SHA-256 implementation matches the NIST test vector for the
empty message. -/
theorem sha256_empty_vector :
    sha256 [] = [0xe3, 0xb0, 0xc4, 0x42, 0x98, 0xfc, 0x1c, 0x14,
                 0x9a, 0xfb, 0xf4, 0xc8, 0x99, 0x6f, 0xb9, 0x24,
                 0x27, 0xae, 0x41, 0xe4, 0x64, 0x9b, 0x93, 0x4c,
                 0xa4, 0x95, 0x99, 0x1b, 0x78, 0x52, 0xb8, 0x55] := by decide

/-- The SHA-256 implementation matches the NIST test vector for the
three-byte message "abc". -/
theorem sha256_abc_vector :
    sha256 [0x61, 0x62, 0x63]
      = [0xba, 0x78, 0x16, 0xbf, 0x8f, 0x01, 0xcf, 0xea,
         0x41, 0x41, 0x40, 0xde, 0x5d, 0xae, 0x22, 0x23,
         0xb0, 0x03, 0x61, 0xa3, 0x96, 0x17, 0x7a, 0x9c,
         0xb4, 0x10, 0xff, 0x61, 0xf2, 0x00, 0x15, 0xad] := by decide

set_option maxRecDepth 40000 in
/-- The HMAC-SHA-256 implementation matches RFC 4231 test case 1 (a
20-byte 0x0b key and the message "Hi There"). -/
theorem hmacSha256_rfc4231_tc1 :
    hmacSha256 (List.replicate 20 0x0b) [0x48, 0x69, 0x20, 0x54, 0x68, 0x65, 0x72, 0x65]
      = [0xb0, 0x34, 0x4c, 0x61, 0xd8, 0xdb, 0x38, 0x53,
         0x5c, 0xa8, 0xaf, 0xce, 0xaf, 0x0b, 0xf1, 0x2b,
         0x88, 0x1d, 0xc2, 0x00, 0xc9, 0x83, 0x3d, 0xa7,
         0x26, 0xe9, 0x37, 0x6c, 0x2e, 0x32, 0xcf, 0xf7] := by decide

/-- C8 (the intended, well-typed behavior — the source itself passes
the raw `interface\x7b\x7d` payload to `sign`, which requires the
serialized `[]byte`, and thus does not compile): for every secret and
every environment in which `http.NewRequest` succeeds, `Send` returns
success exactly when marshalling succeeded and the transport returned a
status below 400; it returns an error exactly when marshalling fails,
the transport errors, or the status is at least 400; and whenever a
request is built it carries the lower-case hex HMAC-SHA-256 signature
of the serialized JSON body in the signature header together with the
JSON content type. -/
theorem C8_send_contract (env : HttpEnv) (secret : List Nat)
    (hreq : env.newRequestOk = true) :
    ((Send env secret).1 = .ok
      ↔ ∃ jd code, env.marshal = some jd ∧ env.resp = some code
          ∧ code < MinHttpStatusErrorCode)
  ∧ (((Send env secret).1).isError = true
      ↔ (env.marshal = none ∨ env.resp = none
          ∨ ∃ code, env.resp = some code ∧ MinHttpStatusErrorCode ≤ code))
  ∧ (∀ jd, env.marshal = some jd →
      (Send env secret).2
        = some { body := jd, signatureHeaderValue := sign secret jd,
                 contentType := "application/json" }) := by
  obtain ⟨marshal, nro, resp⟩ := env
  simp only at hreq
  subst hreq
  cases marshal with
  | none => simp [Send, SendOutcome.isError]
  | some jd =>
    cases resp with
    | none => simp [Send, SendOutcome.isError]
    | some code =>
      by_cases hcode : MinHttpStatusErrorCode ≤ code
      · simp [Send, SendOutcome.isError, hcode]
      · simp [Send, SendOutcome.isError, hcode]
        omega

/-- Witness for C8: a concrete payload `[1, 2, 3]` posted with secret
`[7]` against a 200 response succeeds, and the built request carries
the signature of the body and the JSON content type. -/
theorem C8_send_contract_witness :
    (Send ⟨some [1, 2, 3], true, some 200⟩ [7]).1 = .ok
  ∧ (Send ⟨some [1, 2, 3], true, some 200⟩ [7]).2
      = some { body := [1, 2, 3],
               signatureHeaderValue := sign [7] [1, 2, 3],
               contentType := "application/json" } :=
  ⟨((C8_send_contract ⟨some [1, 2, 3], true, some 200⟩ [7] rfl).1).mpr
      ⟨[1, 2, 3], 200, rfl, rfl, by decide⟩,
   (C8_send_contract ⟨some [1, 2, 3], true, some 200⟩ [7] rfl).2.2 [1, 2, 3] rfl⟩

end Webhook
